import Mathlib

/-!
Shallow embedding of `src/werkzeug/local.py`.

Python dicts are modelled as association lists with unique keys (insertion
order preserved, as in CPython).  Context identities (the values of
`__ident_func__()`) are `Nat`; attribute names are `String`.  A raised
exception is modelled as `Option.none` or `Except.error`; the current
context identity is passed explicitly to every operation (it is what
`self.__ident_func__()` returns at that call).
-/

namespace Werkzeug

/-- Python exceptions that the code under study raises or catches. -/
inductive PyErr where
  | runtimeError (msg : String)
  | attributeError (name : String)
  | typeError
  | indexError
deriving DecidableEq

deriving instance DecidableEq for Except

/-- `d[k]` on a dict modelled as an association list: value of the first
binding of `k`, `none` when `k` raises `KeyError`. -/
def dget {κ β : Type} [BEq κ] (d : List (κ × β)) (k : κ) : Option β :=
  match d with
  | [] => none
  | (k₁, v) :: rest => if k₁ == k then some v else dget rest k

/-- `d[k] = v` on a dict: replace the binding of `k` in place if present
(CPython keeps the original position), otherwise append it at the end. -/
def dset {κ β : Type} [BEq κ] (d : List (κ × β)) (k : κ) (v : β) : List (κ × β) :=
  match d with
  | [] => [(k, v)]
  | (k₁, v₁) :: rest => if k₁ == k then (k, v) :: rest else (k₁, v₁) :: dset rest k v

/-- `d.pop(k, None)` / `del d[k]` on a dict: drop every binding of `k`
(on unique-key states, exactly the removal of the one entry), no-op when
`k` is absent. -/
def dpop {κ β : Type} [BEq κ] (d : List (κ × β)) (k : κ) : List (κ × β) :=
  match d with
  | [] => []
  | (k₁, v₁) :: rest => if k₁ == k then dpop rest k else (k₁, v₁) :: dpop rest k

/-- `Local`: `__storage__` maps context identity to a per-context dict of
named values.  `__ident_func__` is not stored; each operation takes the
identity it would return as an argument. -/
structure Local (α : Type) where
  storage : List (Nat × List (String × α))
deriving DecidableEq

/-- `Local.__getattr__`: `self.__storage__[ident][name]`; a `KeyError` at
either level becomes `AttributeError(name)`, modelled as `none`.  This also
models `getattr(local, name, None)`, which catches that error. -/
def Local.getattr {α : Type} (s : Local α) (ident : Nat) (name : String) : Option α :=
  match dget s.storage ident with
  | none => none
  | some m => dget m name

/-- `Local.__setattr__`: try `storage[ident][name] = value`; on `KeyError`
(no entry for `ident` yet) do `storage[ident] = {name: value}`. -/
def Local.setattr {α : Type} (s : Local α) (ident : Nat) (name : String) (v : α) : Local α :=
  match dget s.storage ident with
  | some m => ⟨dset s.storage ident (dset m name v)⟩
  | none => ⟨dset s.storage ident [(name, v)]⟩

/-- `Local.__delattr__`: `del storage[ident][name]`; a `KeyError` at either
level becomes `AttributeError(name)` (`none`).  On success the per-context
dict stays in place, possibly empty. -/
def Local.delattr {α : Type} (s : Local α) (ident : Nat) (name : String) : Option (Local α) :=
  match dget s.storage ident with
  | none => none
  | some m =>
    match dget m name with
    | none => none
    | some _ => some ⟨dset s.storage ident (dpop m name)⟩

/-- `Local.__release_local__` (and `release_local(local)` which just calls
it): `storage.pop(ident, None)`. -/
def Local.release {α : Type} (s : Local α) (ident : Nat) : Local α :=
  ⟨dpop s.storage ident⟩

/-- `LocalStack.push`: `rv = getattr(self._local, "stack", None)`; when
`None`, store a fresh list; append `obj` (a mutation seen through the
stored reference); return the resulting list. -/
def LocalStack.push {α : Type} (s : Local (List α)) (ident : Nat) (x : α) :
    Local (List α) × List α :=
  let rv := (Local.getattr s ident "stack").getD []
  let rv₂ := rv ++ [x]
  (Local.setattr s ident "stack" rv₂, rv₂)

/-- `LocalStack.pop`: `None` when no stack is stored; when the stored list
has exactly one element, `release_local` the context entry and return that
element; otherwise `stack.pop()` (mutating the stored list; `IndexError`
on an empty list). -/
def LocalStack.pop {α : Type} (s : Local (List α)) (ident : Nat) :
    Except PyErr (Local (List α) × Option α) :=
  match Local.getattr s ident "stack" with
  | none => Except.ok (s, none)
  | some stack =>
    if stack.length == 1 then
      Except.ok (Local.release s ident, stack.getLast?)
    else
      match stack.getLast? with
      | none => Except.error PyErr.indexError
      | some x => Except.ok (Local.setattr s ident "stack" stack.dropLast, x)

/-- `LocalStack.top`: `self._local.stack[-1]`, with `AttributeError` and
`IndexError` both caught and turned into `None`. -/
def LocalStack.top {α : Type} (s : Local (List α)) (ident : Nat) : Option α :=
  match Local.getattr s ident "stack" with
  | none => none
  | some stack => stack.getLast?

/-- `LocalManager.cleanup`: `for local in self.locals: release_local(local)`.
Each member's storage is released for the identity its ident function
returns; in one fixed context all members see the same `ident`. -/
def LocalManager.cleanup {α : Type} (locals : List (Local α)) (ident : Nat) :
    List (Local α) :=
  locals.map (fun l => Local.release l ident)

/-- `LocalProxy` bound in the storage-attribute style: it keeps only the
attribute name (`__name__`); the `Local` it reads through and the current
identity are passed to each operation. -/
structure LocalProxy where
  name : String
deriving DecidableEq

/-- `LocalProxy._get_current_object` for a storage-attribute proxy:
`getattr(self.__local, self.__name__)`, with `AttributeError` turned into
`RuntimeError(f"no object bound to {name}")`. -/
def LocalProxy.getCurrentObject {β : Type} (p : LocalProxy) (st : Local β) (ident : Nat) :
    Except PyErr β :=
  match Local.getattr st ident p.name with
  | none => Except.error (PyErr.runtimeError ("no object bound to " ++ p.name))
  | some v => Except.ok v

/-- `LocalProxy._get_current_object` for a proxy made by `LocalStack.__call__`:
the resolver is `_lookup`, which returns `self.top` or raises
`RuntimeError("object unbound")` when the top is `None`. -/
def stackLookup {α : Type} (s : Local (List α)) (ident : Nat) : Except PyErr α :=
  match LocalStack.top s ident with
  | none => Except.error (PyErr.runtimeError "object unbound")
  | some rv => Except.ok rv

/-- `LocalProxy.__bool__`: `bool(self._get_current_object())` with
`RuntimeError` caught and turned into `False`.  `resolve` is the result of
the resolver; `toBool` is the resolved object's `bool(...)`. -/
def proxyBool {α : Type} (resolve : Except PyErr α) (toBool : α → Bool) :
    Except PyErr Bool :=
  match resolve with
  | Except.ok v => Except.ok (toBool v)
  | Except.error (PyErr.runtimeError _) => Except.ok false
  | Except.error e => Except.error e

/-- `LocalProxy.__repr__`: `repr(self._get_current_object())` with
`RuntimeError` caught and turned into `f"<{type(self).__name__} unbound>"`,
which for `LocalProxy` itself renders as `"<LocalProxy unbound>"`. -/
def proxyRepr {α : Type} (resolve : Except PyErr α) (reprFn : α → String) :
    Except PyErr String :=
  match resolve with
  | Except.ok v => Except.ok (reprFn v)
  | Except.error (PyErr.runtimeError _) => Except.ok "<LocalProxy unbound>"
  | Except.error e => Except.error e

/-- `LocalProxy.__getattr__`: `getattr(self._get_current_object(), name)`;
a resolution failure propagates uncaught.  `getA` is attribute lookup on
the resolved object. -/
def proxyGetattrFwd {α β : Type} (resolve : Except PyErr α)
    (getA : α → String → Except PyErr β) (name : String) : Except PyErr β :=
  match resolve with
  | Except.error e => Except.error e
  | Except.ok v => getA v name

/-- Outcome of calling a Python reflected-operator method: either a real
result or the `NotImplemented` sentinel. -/
inductive RRes (γ : Type) where
  | notImplemented
  | value (v : γ)
deriving DecidableEq

/-- The body of `_r_op` after `co = proxy._get_current_object()`:
`r_op = getattr(co, name, None)`; if present call it, falling back to
`l_op(other, co)` when it returns `NotImplemented`; if absent go straight
to `l_op(other, co)`.  `getROp` models `getattr(·, name, None)` for the
reflected-operator name. -/
def rOpDispatch {α γ : Type} (co : α) (other : α)
    (getROp : α → Option (α → RRes γ)) (lOp : α → α → γ) : γ :=
  match getROp co with
  | some rop =>
    match rop other with
    | RRes.notImplemented => lOp other co
    | RRes.value out => out
  | none => lOp other co

/-- `_r_op(proxy, other, name, l_op)` for a storage-attribute proxy: resolve
the current object, then dispatch as `rOpDispatch`. -/
def rOp {α γ : Type} (p : LocalProxy) (st : Local α) (ident : Nat) (other : α)
    (getROp : α → Option (α → RRes γ)) (lOp : α → α → γ) : Except PyErr γ :=
  match p.getCurrentObject st ident with
  | Except.error e => Except.error e
  | Except.ok co => Except.ok (rOpDispatch co other getROp lOp)

/-- Python runtime objects used by the in-place-operator claims: an integer
(immutable) or a list of integers (mutable). -/
inductive Obj where
  | int (n : Int)
  | list (xs : List Int)
deriving DecidableEq

/-- A heap of Python objects: references are `Nat`, dict-style. -/
abbrev Heap := List (Nat × Obj)

/-- A reference unused by the heap (CPython: the address of a freshly
allocated object). -/
def freshRef (h : Heap) : Nat :=
  (h.map (fun p => p.1)).foldr (fun a b => max a b) 0 + 1

/-- `operator.iadd(co, other)` = `co += other` on a temporary: a list is
mutated in place through its reference and returned; an `int`, which has no
`__iadd__`, falls back to `__add__` and yields a freshly allocated object,
leaving the original untouched.  Mixed operand kinds raise `TypeError`
(so does a dangling reference, which no reachable state produces). -/
def objIadd (h : Heap) (r : Nat) (other : Obj) : Except PyErr (Heap × Nat) :=
  match dget h r with
  | some (Obj.list xs) =>
    match other with
    | Obj.list ys => Except.ok (dset h r (Obj.list (xs ++ ys)), r)
    | _ => Except.error PyErr.typeError
  | some (Obj.int n) =>
    match other with
    | Obj.int m => Except.ok (dset h (freshRef h) (Obj.int (n + m)), freshRef h)
    | _ => Except.error PyErr.typeError
  | none => Except.error PyErr.typeError

/-- `LocalProxy.__iadd__`: `operator.iadd(self._get_current_object(), other)`
with the operation's value discarded, then `return self`.  The returned
triple is (the proxy returned, the storage, the heap); the storage binding
is never written. -/
def proxyIadd (p : LocalProxy) (st : Local Nat) (h : Heap) (ident : Nat) (other : Obj) :
    Except PyErr (LocalProxy × Local Nat × Heap) :=
  match p.getCurrentObject st ident with
  | Except.error e => Except.error e
  | Except.ok r =>
    match objIadd h r other with
    | Except.error e => Except.error e
    | Except.ok (h₂, _) => Except.ok (p, st, h₂)

/-- The `LocalStack` invariant: whenever the backing storage holds a value
for the `"stack"` attribute of some context, that value is a non-empty
list. -/
def StackInv {α : Type} (s : Local (List α)) : Prop :=
  ∀ (i : Nat) (l : List α), Local.getattr s i "stack" = some l → l ≠ []

/-- A fresh `LocalStack` backing storage (scenario of tests for the stack). -/
def c2s0 : Local (List Nat) := ⟨[]⟩

/-- The storage after `push 10` in context `1`. -/
def c2s1 : Local (List Nat) := (LocalStack.push c2s0 1 10).1

/-- The storage after `push 10; push 20` in context `1`. -/
def c2s2 : Local (List Nat) := (LocalStack.push c2s1 1 20).1

/-- The storage after `push 10; push 20; push 30` in context `1`. -/
def c2s3 : Local (List Nat) := (LocalStack.push c2s2 1 30).1

/-- `getattr(co, "__radd__", None)` on the object model: `int` has a
reflected add that returns `NotImplemented` on a non-`int` right... left
operand; `list` has no `__radd__` at all. -/
def raddTable : Obj → Option (Obj → RRes (Except PyErr Obj))
  | Obj.int n => some (fun other =>
      match other with
      | Obj.int m => RRes.value (Except.ok (Obj.int (m + n)))
      | _ => RRes.notImplemented)
  | Obj.list _ => none

/-- `operator.add` on the object model: concatenation for lists, addition
for ints, `TypeError` for mixed operands. -/
def pyAdd : Obj → Obj → Except PyErr Obj
  | Obj.int m, Obj.int n => Except.ok (Obj.int (m + n))
  | Obj.list xs, Obj.list ys => Except.ok (Obj.list (xs ++ ys))
  | _, _ => Except.error PyErr.typeError

/-! ## Association-list (dict) lemmas -/

theorem dget_dset_self {κ β : Type} [BEq κ] [LawfulBEq κ]
    (d : List (κ × β)) (k : κ) (v : β) : dget (dset d k v) k = some v := by
  induction d with
  | nil => simp [dget, dset]
  | cons p rest ih =>
    obtain ⟨k₁, v₁⟩ := p
    by_cases h : k₁ == k
    · simp [dget, dset, h]
    · simp [dget, dset, h, ih]

theorem dget_dset_ne {κ β : Type} [BEq κ] [LawfulBEq κ]
    (d : List (κ × β)) (k k' : κ) (v : β) (hne : k' ≠ k) :
    dget (dset d k v) k' = dget d k' := by
  induction d with
  | nil => simp [dget, dset, Ne.symm hne]
  | cons p rest ih =>
    obtain ⟨k₁, v₁⟩ := p
    by_cases h : k₁ == k
    · have hk : k₁ = k := eq_of_beq h
      subst hk
      simp [dget, dset, Ne.symm hne]
    · by_cases h₂ : k₁ == k'
      · simp [dget, dset, h, h₂]
      · simp [dget, dset, h, h₂, ih]

theorem dget_dpop_self {κ β : Type} [BEq κ] [LawfulBEq κ]
    (d : List (κ × β)) (k : κ) : dget (dpop d k) k = none := by
  induction d with
  | nil => simp [dget, dpop]
  | cons p rest ih =>
    obtain ⟨k₁, v₁⟩ := p
    by_cases h : k₁ == k
    · simp [dpop, h, ih]
    · simp [dpop, h, dget, ih]

theorem dget_dpop_ne {κ β : Type} [BEq κ] [LawfulBEq κ]
    (d : List (κ × β)) (k k' : κ) (hne : k' ≠ k) :
    dget (dpop d k) k' = dget d k' := by
  induction d with
  | nil => simp [dget, dpop]
  | cons p rest ih =>
    obtain ⟨k₁, v₁⟩ := p
    by_cases h : k₁ == k
    · have hk : k₁ = k := eq_of_beq h
      subst hk
      simp [dpop, dget, Ne.symm hne, ih]
    · by_cases h₂ : k₁ == k'
      · simp [dpop, h, dget, h₂]
      · simp [dpop, h, dget, h₂, ih]

theorem dpop_of_dget_none {κ β : Type} [BEq κ] [LawfulBEq κ]
    (d : List (κ × β)) (k : κ) (h : dget d k = none) : dpop d k = d := by
  induction d with
  | nil => simp [dpop]
  | cons p rest ih =>
    obtain ⟨k₁, v₁⟩ := p
    by_cases hk : k₁ == k
    · simp [dget, hk] at h
    · simp only [dget, hk, Bool.false_eq_true, if_neg, not_false_iff] at h
      simp [dpop, hk, ih h]

theorem dpop_idem {κ β : Type} [BEq κ] [LawfulBEq κ]
    (d : List (κ × β)) (k : κ) : dpop (dpop d k) k = dpop d k :=
  dpop_of_dget_none (dpop d k) k (dget_dpop_self d k)

/-! ## `Local` storage lemmas -/

theorem dget_setattr_ne {α : Type} (s : Local α) (i i' : Nat) (n : String) (v : α)
    (hne : i' ≠ i) : dget (Local.setattr s i n v).storage i' = dget s.storage i' := by
  unfold Local.setattr
  cases hm : dget s.storage i with
  | none => simp [dget_dset_ne _ _ _ _ hne]
  | some m => simp [dget_dset_ne _ _ _ _ hne]

theorem dget_setattr_self {α : Type} (s : Local α) (i : Nat) (n : String) (v : α) :
    ∃ m, dget (Local.setattr s i n v).storage i = some m ∧ dget m n = some v := by
  unfold Local.setattr
  cases hm : dget s.storage i with
  | none => exact ⟨[(n, v)], by simp [dget_dset_self], by simp [dget]⟩
  | some m => exact ⟨dset m n v, by simp [dget_dset_self], dget_dset_self m n v⟩

theorem getattr_setattr_self {α : Type} (s : Local α) (i : Nat) (n : String) (v : α) :
    Local.getattr (Local.setattr s i n v) i n = some v := by
  obtain ⟨m, hm, hv⟩ := dget_setattr_self s i n v
  simp [Local.getattr, hm, hv]

theorem getattr_setattr_ne_ident {α : Type} (s : Local α) (i i' : Nat) (n n' : String)
    (v : α) (hne : i' ≠ i) :
    Local.getattr (Local.setattr s i n v) i' n' = Local.getattr s i' n' := by
  simp [Local.getattr, dget_setattr_ne s i i' n v hne]

theorem getattr_setattr_ne_name {α : Type} (s : Local α) (i : Nat) (n n' : String)
    (v : α) (hne : n' ≠ n) :
    Local.getattr (Local.setattr s i n v) i n' = Local.getattr s i n' := by
  unfold Local.setattr Local.getattr
  cases hm : dget s.storage i with
  | none => simp [hm, dget_dset_self, dget, Ne.symm hne]
  | some m => simp [hm, dget_dset_self, dget_dset_ne _ _ _ _ hne]

theorem dget_release_self {α : Type} (s : Local α) (i : Nat) :
    dget (Local.release s i).storage i = none := by
  simp [Local.release, dget_dpop_self]

theorem dget_release_ne {α : Type} (s : Local α) (i i' : Nat) (hne : i' ≠ i) :
    dget (Local.release s i).storage i' = dget s.storage i' := by
  simp [Local.release, dget_dpop_ne _ _ _ hne]

theorem getattr_release_self {α : Type} (s : Local α) (i : Nat) (n : String) :
    Local.getattr (Local.release s i) i n = none := by
  simp [Local.getattr, dget_release_self]

theorem getattr_release_ne {α : Type} (s : Local α) (i i' : Nat) (n : String)
    (hne : i' ≠ i) :
    Local.getattr (Local.release s i) i' n = Local.getattr s i' n := by
  simp [Local.getattr, dget_release_ne s i i' hne]

theorem release_of_dget_none {α : Type} (s : Local α) (i : Nat)
    (h : dget s.storage i = none) : Local.release s i = s := by
  have hp : dpop s.storage i = s.storage := dpop_of_dget_none _ _ h
  simp [Local.release, hp]

/-! ## Claim theorems -/

/-- Claim C1: for two distinct context identities `i₁ ≠ i₂` sharing one
`Local`, a `__setattr__` performed while the ident function returns `i₁`
changes nothing observable from `i₂`: every `__getattr__` under `i₂`
returns the same result (value or `AttributeError`) as before, and the
per-context entry of `i₂` visible through iteration is unchanged. -/
theorem c1_cross_context_isolation {α : Type} (s : Local α) (i₁ i₂ : Nat)
    (n : String) (v : α) (hne : i₁ ≠ i₂) :
    (∀ m : String,
      Local.getattr (Local.setattr s i₁ n v) i₂ m = Local.getattr s i₂ m) ∧
    dget (Local.setattr s i₁ n v).storage i₂ = dget s.storage i₂ :=
  ⟨fun m => getattr_setattr_ne_ident s i₁ i₂ n m v (Ne.symm hne),
   dget_setattr_ne s i₁ i₂ n v (Ne.symm hne)⟩

/-- Witness for C1 at a concrete storage and contexts 1 and 2. -/
theorem c1_cross_context_isolation_witness :
    (1 : Nat) ≠ 2 ∧
    Local.getattr (Local.setattr (⟨[]⟩ : Local Nat) 1 "x" 5) 2 "x" =
      Local.getattr (⟨[]⟩ : Local Nat) 2 "x" :=
  ⟨by decide, (c1_cross_context_isolation ⟨[]⟩ 1 2 "x" 5 (by decide)).1 "x"⟩

/-- Claim C3: `__getattr__` fails with the attribute-style Unbound error
(`none`) iff the current context has no entry or its entry lacks the name;
`__delattr__` fails iff the name is absent for the current context, and on
success removes exactly that name, leaving the (possibly now empty)
per-context mapping in place and all other contexts untouched. -/
theorem c3_get_delete_unbound {α : Type} (s : Local α) (i : Nat) (n : String) :
    (Local.getattr s i n = none ↔
      dget s.storage i = none ∨
        ∃ m, dget s.storage i = some m ∧ dget m n = none) ∧
    (Local.delattr s i n = none ↔ Local.getattr s i n = none) ∧
    (∀ s', Local.delattr s i n = some s' →
      Local.getattr s' i n = none ∧
      (∀ n', n' ≠ n → Local.getattr s' i n' = Local.getattr s i n') ∧
      (∃ m', dget s'.storage i = some m') ∧
      (∀ i', i' ≠ i → dget s'.storage i' = dget s.storage i')) := by
  refine ⟨?_, ?_, ?_⟩
  · cases hm : dget s.storage i with
    | none => simp [Local.getattr, hm]
    | some m => cases hv : dget m n <;> simp [Local.getattr, hm, hv]
  · cases hm : dget s.storage i with
    | none => simp [Local.delattr, Local.getattr, hm]
    | some m => cases hv : dget m n <;> simp [Local.delattr, Local.getattr, hm, hv]
  · intro s' hdel
    cases hm : dget s.storage i with
    | none => simp [Local.delattr, hm] at hdel
    | some m =>
      cases hv : dget m n with
      | none => simp [Local.delattr, hm, hv] at hdel
      | some v =>
        simp only [Local.delattr, hm, hv] at hdel
        obtain rfl : (⟨dset s.storage i (dpop m n)⟩ : Local α) = s' := by
          simpa using hdel
        refine ⟨?_, ?_, ⟨dpop m n, dget_dset_self _ _ _⟩, ?_⟩
        · simp [Local.getattr, dget_dset_self, dget_dpop_self]
        · intro n' hne
          simp [Local.getattr, dget_dset_self, hm, dget_dpop_ne _ _ _ hne]
        · intro i' hne
          exact dget_dset_ne _ _ _ _ hne

/-- Witness for C3: getting an unbound name fails, deleting a bound name
removes exactly it and keeps the per-context entry in place. -/
theorem c3_get_delete_unbound_witness :
    Local.getattr (⟨[]⟩ : Local Nat) 0 "x" = none ∧
    Local.delattr (⟨[(0, [("x", 5), ("y", 6)])]⟩ : Local Nat) 0 "x" =
      some ⟨[(0, [("y", 6)])]⟩ ∧
    Local.getattr (⟨[(0, [("y", 6)])]⟩ : Local Nat) 0 "x" = none ∧
    Local.getattr (⟨[(0, [("y", 6)])]⟩ : Local Nat) 0 "y" =
      Local.getattr (⟨[(0, [("x", 5), ("y", 6)])]⟩ : Local Nat) 0 "y" := by
  refine ⟨(c3_get_delete_unbound (⟨[]⟩ : Local Nat) 0 "x").1.mpr (Or.inl rfl),
    by decide, ?_, ?_⟩
  · exact ((c3_get_delete_unbound (⟨[(0, [("x", 5), ("y", 6)])]⟩ : Local Nat) 0
      "x").2.2 ⟨[(0, [("y", 6)])]⟩ (by decide)).1
  · exact ((c3_get_delete_unbound (⟨[(0, [("x", 5), ("y", 6)])]⟩ : Local Nat) 0
      "x").2.2 ⟨[(0, [("y", 6)])]⟩ (by decide)).2.1 "y" (by decide)

/-- Claim C8: `__release_local__` is idempotent, removes the whole
per-context mapping of the targeted context if present, is a no-op when the
context has no entry, and leaves every other context's entry exactly as it
was. -/
theorem c8_release_idempotent {α : Type} (s : Local α) (i : Nat) :
    Local.release (Local.release s i) i = Local.release s i ∧
    dget (Local.release s i).storage i = none ∧
    (dget s.storage i = none → Local.release s i = s) ∧
    (∀ i', i' ≠ i → dget (Local.release s i).storage i' = dget s.storage i') :=
  ⟨by simp [Local.release, dpop_idem],
   dget_release_self s i,
   release_of_dget_none s i,
   fun i' h => dget_release_ne s i i' h⟩

/-- Witness for C8 at a concrete storage. -/
theorem c8_release_idempotent_witness :
    dget (⟨[]⟩ : Local Nat).storage 1 = none ∧
    Local.release (⟨[]⟩ : Local Nat) 1 = (⟨[]⟩ : Local Nat) ∧
    (2 : Nat) ≠ 1 ∧
    dget (Local.release (⟨[(1, [("x", 7)])]⟩ : Local Nat) 1).storage 2 =
      dget (⟨[(1, [("x", 7)])]⟩ : Local Nat).storage 2 :=
  ⟨by decide,
   (c8_release_idempotent (⟨[]⟩ : Local Nat) 1).2.2.1 (by decide),
   by decide,
   (c8_release_idempotent (⟨[(1, [("x", 7)])]⟩ : Local Nat) 1).2.2.2 2 (by decide)⟩

/-- Claim C9: `LocalManager.cleanup` releases every member's slice for the
current context (every member of the result has no entry for it), and a
member with no data does not stop the loop: over `[A, B]` with `A` empty
for the context, `A` is untouched and `B` is still released. -/
theorem c9_cleanup_releases_all {α : Type} (locals : List (Local α)) (ident : Nat) :
    (∀ l, l ∈ LocalManager.cleanup locals ident → dget l.storage ident = none) ∧
    (∀ A B : Local α, dget A.storage ident = none →
      LocalManager.cleanup [A, B] ident = [A, Local.release B ident] ∧
      dget (Local.release B ident).storage ident = none) := by
  constructor
  · intro l hl
    simp only [LocalManager.cleanup, List.mem_map] at hl
    obtain ⟨x, _, rfl⟩ := hl
    exact dget_release_self x ident
  · intro A B hA
    refine ⟨?_, dget_release_self B ident⟩
    simp [LocalManager.cleanup, release_of_dget_none A ident hA]

/-- Witness for C9: a manager over `[A, B]` with `A` empty still releases
`B`'s data. -/
theorem c9_cleanup_releases_all_witness :
    dget (⟨[]⟩ : Local Nat).storage 0 = none ∧
    LocalManager.cleanup [(⟨[]⟩ : Local Nat), ⟨[(0, [("x", 5)])]⟩] 0 =
      [⟨[]⟩, Local.release (⟨[(0, [("x", 5)])]⟩ : Local Nat) 0] ∧
    dget (Local.release (⟨[(0, [("x", 5)])]⟩ : Local Nat) 0).storage 0 = none := by
  have h := (c9_cleanup_releases_all ([] : List (Local Nat)) 0).2
    (⟨[]⟩ : Local Nat) ⟨[(0, [("x", 5)])]⟩ (by decide)
  exact ⟨by decide, h.1, h.2⟩

/-- Claim C2: on a fresh stack in context `1`, after pushing 10, 20, 30 in
that order, `top` is 30; the first pop returns 30 leaving `top` 20; the
next two pops return 20 then 10; a fourth pop returns the absent sentinel
(`none`); and after the third pop the context's entry is gone from the
backing storage: iterating it shows no entry for context `1`. -/
theorem c2_stack_scenario :
    LocalStack.top c2s3 1 = some 30 ∧
    LocalStack.pop c2s3 1 = Except.ok (c2s2, some 30) ∧
    LocalStack.top c2s2 1 = some 20 ∧
    LocalStack.pop c2s2 1 = Except.ok (c2s1, some 20) ∧
    LocalStack.pop c2s1 1 = Except.ok (c2s0, some 10) ∧
    LocalStack.pop c2s0 1 = Except.ok (c2s0, none) ∧
    c2s0.storage.find? (fun e => e.1 == 1) = none ∧
    (∀ e ∈ c2s0.storage, e.1 ≠ 1) := by
  decide

/-- Claim C7: under the stack invariant (any stored `"stack"` value is a
non-empty list, for every context), `push` and `pop` preserve the
invariant, and popping a context whose stored stack has exactly one
element removes that context's storage entry entirely. -/
theorem c7_stack_invariant {α : Type} (s : Local (List α)) (i : Nat)
    (hInv : StackInv s) :
    (∀ x : α, StackInv (LocalStack.push s i x).1) ∧
    (∀ s' v, LocalStack.pop s i = Except.ok (s', v) → StackInv s') ∧
    (∀ x : α, Local.getattr s i "stack" = some [x] →
      ∃ s', LocalStack.pop s i = Except.ok (s', some x) ∧
        dget s'.storage i = none) := by
  refine ⟨?_, ?_, ?_⟩
  · intro x i' l' h'
    by_cases hi : i' = i
    · subst hi
      rw [LocalStack.push] at h'
      rw [getattr_setattr_self] at h'
      obtain rfl : (Local.getattr s i' "stack").getD [] ++ [x] = l' := by
        simpa using h'
      simp
    · rw [LocalStack.push] at h'
      rw [getattr_setattr_ne_ident s i i' _ _ _ hi] at h'
      exact hInv i' l' h'
  · intro s' v hpop
    cases hst : Local.getattr s i "stack" with
    | none =>
      simp only [LocalStack.pop, hst] at hpop
      obtain ⟨rfl, rfl⟩ : s = s' ∧ (none : Option α) = v := by simpa using hpop
      exact hInv
    | some stack =>
      simp only [LocalStack.pop, hst] at hpop
      by_cases hlen : stack.length == 1
      · rw [if_pos hlen] at hpop
        obtain ⟨rfl, rfl⟩ : Local.release s i = s' ∧ stack.getLast? = v := by
          simpa using hpop
        intro i' l' h'
        by_cases hi : i' = i
        · subst hi
          rw [getattr_release_self] at h'
          exact absurd h' (by simp)
        · rw [getattr_release_ne s i i' _ hi] at h'
          exact hInv i' l' h'
      · rw [if_neg hlen] at hpop
        have hne : stack ≠ [] := hInv i stack hst
        obtain ⟨x, hx⟩ : ∃ x, stack.getLast? = some x := by
          cases hgl : stack.getLast? with
          | none => exact absurd (List.getLast?_eq_none_iff.mp hgl) hne
          | some x => exact ⟨x, rfl⟩
        simp only [hx] at hpop
        obtain ⟨rfl, rfl⟩ :
            Local.setattr s i "stack" stack.dropLast = s' ∧ x = v := by
          simpa using hpop
        intro i' l' h'
        by_cases hi : i' = i
        · subst hi
          rw [getattr_setattr_self] at h'
          obtain rfl : stack.dropLast = l' := by simpa using h'
          have hlen1 : stack.length ≠ 1 := by simpa using hlen
          have h0 : stack.length ≠ 0 := by
            intro hc
            exact hne (List.length_eq_zero.mp hc)
          intro hcon
          have hd : stack.dropLast.length = 0 := by rw [hcon]; rfl
          rw [List.length_dropLast] at hd
          omega
        · rw [getattr_setattr_ne_ident s i i' _ _ _ hi] at h'
          exact hInv i' l' h'
  · intro x hst
    refine ⟨Local.release s i, ?_, dget_release_self s i⟩
    rw [LocalStack.pop, hst]
    simp

/-- Witness for C7: a stack holding exactly `[5]` for context 1 satisfies
the invariant, and popping removes the context's storage entry. -/
theorem c7_stack_invariant_witness :
    StackInv (⟨[(1, [("stack", [5])])]⟩ : Local (List Nat)) ∧
    ∃ s', LocalStack.pop (⟨[(1, [("stack", [5])])]⟩ : Local (List Nat)) 1 =
        Except.ok (s', some 5) ∧ dget s'.storage 1 = none := by
  have hInv : StackInv (⟨[(1, [("stack", [5])])]⟩ : Local (List Nat)) := by
    intro i l h
    by_cases hi : i = 1
    · subst hi
      have hv : Local.getattr (⟨[(1, [("stack", [5])])]⟩ : Local (List Nat))
          1 "stack" = some [5] := by decide
      rw [hv] at h
      injection h with h₂
      subst h₂
      simp
    · simp [Local.getattr, dget, Ne.symm hi] at h
  exact ⟨hInv, (c7_stack_invariant _ 1 hInv).2.2 5 (by decide)⟩

/-- Claim C4: a proxy whose resolution is Unbound (here, built by calling a
`LocalStack` whose stack is empty for the current context): `__bool__`
returns `False` instead of propagating the failure, `__repr__` renders the
explicit unbound marker instead of raising, and `__getattr__` raises the
runtime unbound failure with message `"object unbound"`. -/
theorem c4_unbound_proxy {α β : Type} (s : Local (List α)) (ident : Nat)
    (toBool : α → Bool) (reprFn : α → String)
    (getA : α → String → Except PyErr β) (name : String)
    (hTop : LocalStack.top s ident = none) :
    proxyBool (stackLookup s ident) toBool = Except.ok false ∧
    proxyRepr (stackLookup s ident) reprFn = Except.ok "<LocalProxy unbound>" ∧
    proxyGetattrFwd (stackLookup s ident) getA name =
      Except.error (PyErr.runtimeError "object unbound") := by
  have hres : stackLookup s ident =
      Except.error (PyErr.runtimeError "object unbound") := by
    simp [stackLookup, hTop]
  simp [proxyBool, proxyRepr, proxyGetattrFwd, hres]

/-- Witness for C4 over a completely empty stack storage. -/
theorem c4_unbound_proxy_witness :
    LocalStack.top (⟨[]⟩ : Local (List Nat)) 0 = none ∧
    proxyBool (stackLookup (⟨[]⟩ : Local (List Nat)) 0) (fun _ => true) =
      Except.ok false ∧
    proxyGetattrFwd (stackLookup (⟨[]⟩ : Local (List Nat)) 0)
        (fun v _ => Except.ok v) "attr" =
      Except.error (PyErr.runtimeError "object unbound") := by
  have h := c4_unbound_proxy (⟨[]⟩ : Local (List Nat)) 0 (fun _ => true)
    (fun _ => "") (fun v _ => Except.ok v) "attr" (by decide)
  exact ⟨by decide, h.1, h.2.2⟩

/-- Claim C5: `_r_op` on a bound proxy first invokes the resolved object's
own reflected operator when present, falls back to the plain left-hand
operator with operands reversed when that attribute is absent or the call
returns `NotImplemented`, and returns whichever result was produced. -/
theorem c5_r_op_dispatch {α γ : Type} (p : LocalProxy) (st : Local α)
    (ident : Nat) (other : α) (getROp : α → Option (α → RRes γ))
    (lOp : α → α → γ) (co : α)
    (hres : p.getCurrentObject st ident = Except.ok co) :
    (∀ rop, getROp co = some rop →
      (∀ out, rop other = RRes.value out →
        rOp p st ident other getROp lOp = Except.ok out) ∧
      (rop other = RRes.notImplemented →
        rOp p st ident other getROp lOp = Except.ok (lOp other co))) ∧
    (getROp co = none → rOp p st ident other getROp lOp = Except.ok (lOp other co)) := by
  constructor
  · intro rop hrop
    constructor
    · intro out hout
      simp [rOp, hres, rOpDispatch, hrop, hout]
    · intro hni
      simp [rOp, hres, rOpDispatch, hrop, hni]
  · intro hnone
    simp [rOp, hres, rOpDispatch, hnone]

/-- Witness for C5: `3 + proxy` with the proxy bound to the int 5 goes
through `int.__radd__` and yields 8. -/
theorem c5_r_op_dispatch_witness :
    LocalProxy.getCurrentObject ⟨"x"⟩ (⟨[(0, [("x", Obj.int 5)])]⟩ : Local Obj)
      0 = Except.ok (Obj.int 5) ∧
    rOp ⟨"x"⟩ (⟨[(0, [("x", Obj.int 5)])]⟩ : Local Obj) 0 (Obj.int 3)
      raddTable pyAdd = Except.ok (Except.ok (Obj.int 8)) := by
  refine ⟨rfl, ?_⟩
  have h := (c5_r_op_dispatch ⟨"x"⟩ (⟨[(0, [("x", Obj.int 5)])]⟩ : Local Obj)
    0 (Obj.int 3) raddTable pyAdd (Obj.int 5) rfl).1
  exact ((h _ rfl).1 _ rfl)

/-- Claim C6: `__iadd__` on a bound proxy mutates the resolved object and
returns the proxy itself (not the operation's value); for a proxy whose
binding is a mutable list, the stored reference is unchanged and resolves
to the same, now-mutated object afterwards. -/
theorem c6_iadd_mutates_returns_self (p : LocalProxy) (st : Local Nat)
    (h : Heap) (ident r : Nat) (xs ys : List Int)
    (hbind : Local.getattr st ident p.name = some r)
    (hobj : dget h r = some (Obj.list xs)) :
    proxyIadd p st h ident (Obj.list ys) =
      Except.ok (p, st, dset h r (Obj.list (xs ++ ys))) ∧
    dget (dset h r (Obj.list (xs ++ ys))) r = some (Obj.list (xs ++ ys)) ∧
    p.getCurrentObject st ident = Except.ok r := by
  have hres : p.getCurrentObject st ident = Except.ok r := by
    simp [LocalProxy.getCurrentObject, hbind]
  refine ⟨?_, dget_dset_self h r _, hres⟩
  simp [proxyIadd, hres, objIadd, hobj]

/-- Witness for C6: `proxy += [3]` over the stored list `[1, 2]`. -/
theorem c6_iadd_mutates_returns_self_witness :
    Local.getattr (⟨[(0, [("x", 7)])]⟩ : Local Nat) 0 "x" = some 7 ∧
    dget ([(7, Obj.list [1, 2])] : Heap) 7 = some (Obj.list [1, 2]) ∧
    proxyIadd ⟨"x"⟩ (⟨[(0, [("x", 7)])]⟩ : Local Nat) [(7, Obj.list [1, 2])]
        0 (Obj.list [3]) =
      Except.ok (⟨"x"⟩, ⟨[(0, [("x", 7)])]⟩,
        dset ([(7, Obj.list [1, 2])] : Heap) 7 (Obj.list ([1, 2] ++ [3]))) := by
  have h := c6_iadd_mutates_returns_self ⟨"x"⟩ (⟨[(0, [("x", 7)])]⟩ : Local Nat)
    [(7, Obj.list [1, 2])] 0 7 [1, 2] [3] (by decide) (by decide)
  exact ⟨by decide, by decide, h.1⟩

theorem mem_le_foldr_max (l : List Nat) (k : Nat) (hk : k ∈ l) :
    k ≤ l.foldr (fun a b => max a b) 0 := by
  induction l with
  | nil => simp at hk
  | cons a rest ih =>
    rcases List.mem_cons.mp hk with h | h
    · subst h
      exact le_max_left _ _
    · exact le_trans (ih h) (le_max_right _ _)

theorem dget_mem_keys {κ β : Type} [BEq κ] [LawfulBEq κ] (d : List (κ × β))
    (k : κ) (v : β) (h : dget d k = some v) : k ∈ d.map (fun p => p.1) := by
  induction d with
  | nil => simp [dget] at h
  | cons p rest ih =>
    obtain ⟨k₁, v₁⟩ := p
    by_cases hk : k₁ == k
    · have : k₁ = k := eq_of_beq hk
      subst this
      simp
    · simp only [dget, hk, Bool.false_eq_true, if_neg, not_false_iff] at h
      simp [ih h]

theorem ne_freshRef_of_dget (h : Heap) (r : Nat) (v : Obj)
    (hr : dget h r = some v) : r ≠ freshRef h := by
  have hmem := dget_mem_keys h r v hr
  have hle := mem_le_foldr_max (h.map (fun p => p.1)) r hmem
  unfold freshRef
  omega

/-- Claim C10: `__iadd__` through a proxy resolving to an immutable object
(an int): the computed sum becomes a fresh object and is discarded; the
storage still maps the attribute name to the original reference, and the
heap still holds the original int at that reference. -/
theorem c10_iadd_immutable_frame (p : LocalProxy) (st : Local Nat) (h : Heap)
    (ident r : Nat) (n m : Int)
    (hbind : Local.getattr st ident p.name = some r)
    (hobj : dget h r = some (Obj.int n)) :
    ∃ h₂, proxyIadd p st h ident (Obj.int m) = Except.ok (p, st, h₂) ∧
      Local.getattr st ident p.name = some r ∧
      dget h₂ r = some (Obj.int n) := by
  have hres : p.getCurrentObject st ident = Except.ok r := by
    simp [LocalProxy.getCurrentObject, hbind]
  refine ⟨dset h (freshRef h) (Obj.int (n + m)), ?_, hbind, ?_⟩
  · simp [proxyIadd, hres, objIadd, hobj]
  · rw [dget_dset_ne h (freshRef h) r _ (ne_freshRef_of_dget h r _ hobj)]
    exact hobj

/-- Witness for C10: `proxy += 3` over the stored int 5 leaves both the
binding and the original object unchanged. -/
theorem c10_iadd_immutable_frame_witness :
    Local.getattr (⟨[(0, [("x", 7)])]⟩ : Local Nat) 0 "x" = some 7 ∧
    dget ([(7, Obj.int 5)] : Heap) 7 = some (Obj.int 5) ∧
    ∃ h₂, proxyIadd ⟨"x"⟩ (⟨[(0, [("x", 7)])]⟩ : Local Nat) [(7, Obj.int 5)]
        0 (Obj.int 3) = Except.ok (⟨"x"⟩, ⟨[(0, [("x", 7)])]⟩, h₂) ∧
      Local.getattr (⟨[(0, [("x", 7)])]⟩ : Local Nat) 0 "x" = some 7 ∧
      dget h₂ 7 = some (Obj.int 5) :=
  ⟨by decide, by decide,
   c10_iadd_immutable_frame ⟨"x"⟩ (⟨[(0, [("x", 7)])]⟩ : Local Nat)
     [(7, Obj.int 5)] 0 7 5 3 (by decide) (by decide)⟩

end Werkzeug
